import Mathlib

/-!
Shallow embedding of the passwordless-authentication core of the
Digital-menu repository (tRPC `authRouter` in
`src/server/api/routers/restaurant.ts`, request context in
`src/server/api/trpc.ts`, email dispatch in `src/lib/send-email.ts`).

The relational store is modelled as explicit lists; randomness
(`Math.random`, `randomBytes`) and the current time (`new Date()`) are
passed in as parameters; Prisma calls become list operations; thrown
`TRPCError`s become `Except.error` carrying the TRPC error code.
-/

namespace DigitalMenu

/-- Row of the `users` table (`id, email unique, name, country`). -/
structure User where
  id : Nat
  email : String
  name : String
  country : String
deriving Repr, DecidableEq

/-- Row of the `verification_codes` table. -/
structure VerificationCode where
  id : Nat
  email : String
  code : String
  expiresAt : Nat
  createdAt : Nat
deriving Repr, DecidableEq

/-- Row of the `sessions` table. -/
structure Session where
  id : Nat
  userId : Nat
  token : String
  expiresAt : Nat
  createdAt : Nat
deriving Repr, DecidableEq

/-- The relational store; `nextId` supplies fresh primary keys. -/
structure DB where
  users : List User
  verificationCodes : List VerificationCode
  sessions : List Session
  nextId : Nat
deriving Repr, DecidableEq

def dbEmpty : DB := ⟨[], [], [], 0⟩

/-- TRPC error codes thrown by the auth router / middleware. -/
inductive TRPCErrorCode where
  | UNAUTHORIZED
  | INTERNAL_SERVER_ERROR
  | NOT_FOUND
deriving Repr, DecidableEq

/-- Source `expiresAt.setMinutes(expiresAt.getMinutes() + 10)`: ten minutes in ms. -/
def tenMinutesMs : Nat := 10 * 60 * 1000

/-- Source `expiresAt.setDate(expiresAt.getDate() + 30)`: thirty days in ms. -/
def thirtyDaysMs : Nat := 30 * 24 * 60 * 60 * 1000

/-- Source `Math.floor(100000 + Math.random() * 900000)`, with the `Math.random()`
draw `r` (a value in `[0,1)`) passed as a parameter. -/
def generateVerificationCode (r : ℚ) : Nat :=
  (⌊(100000 : ℚ) + r * 900000⌋).toNat

/-- Result shape of `sendVerificationCodeEmail`: `{success, message?, code?}`
(the catch branch returns `{success: false, error}`, i.e. no `code`). -/
structure EmailSendResult where
  success : Bool
  message : String
  code : Option String
deriving Repr, DecidableEq

/-- Model of `sendVerificationCodeEmail(email, code, sendVerificationCode)` from
`src/lib/send-email.ts`.  `sendFlag` is the third argument,
`resendConfigured` models `resend && env.RESEND_API_KEY`, and
`sendSucceeds` models whether `resend.emails.send` throws. -/
def sendVerificationCodeEmail (_email code : String)
    (sendFlag resendConfigured sendSucceeds : Bool) : EmailSendResult :=
  if !sendFlag then
    ⟨true, "Verification code sent", some code⟩
  else if !resendConfigured then
    ⟨true, "Verification code sent", some code⟩
  else if sendSucceeds then
    ⟨true, "Verification code sent", some code⟩
  else
    ⟨false, "", none⟩

/-- Response shape of `authRouter.sendVerificationCode`. -/
structure SendCodeResponse where
  success : Bool
  message : String
  code : Option String
deriving Repr, DecidableEq

/-- Model of `ctx.db.verificationCode.create`. -/
def DB.createVerificationCode (db : DB) (email code : String)
    (expiresAt createdAt : Nat) : DB :=
  { db with
    verificationCodes :=
      db.verificationCodes ++ [⟨db.nextId, email, code, expiresAt, createdAt⟩],
    nextId := db.nextId + 1 }

/-- Model of `authRouter.sendVerificationCode`: create the code row (10-minute
expiry), then call the email collaborator; on collaborator failure throw
`INTERNAL_SERVER_ERROR`.  The resulting store is returned in both cases,
since the thrown error does not roll anything back. -/
def sendVerificationCode (db : DB) (now : Nat) (email : String) (r : ℚ)
    (sendFlag resendConfigured sendSucceeds : Bool) :
    Except TRPCErrorCode SendCodeResponse × DB :=
  let code := Nat.repr (generateVerificationCode r)
  let expiresAt := now + tenMinutesMs
  let db1 := db.createVerificationCode email code expiresAt now
  let result := sendVerificationCodeEmail email code sendFlag resendConfigured sendSucceeds
  if result.success then
    (Except.ok ⟨true, result.message, result.code⟩, db1)
  else
    (Except.error TRPCErrorCode.INTERNAL_SERVER_ERROR, db1)

/-- The `where` clause of the code lookup: email and code match exactly and
`expiresAt: { gt: new Date() }`. -/
def matchesCode (email code : String) (now : Nat) (v : VerificationCode) : Bool :=
  v.email == email && v.code == code && decide (now < v.expiresAt)

/-- Accumulator step realising `orderBy: { createdAt: "desc" }` with
`findFirst`: keep the row with the greatest `createdAt`. -/
def pickLatest : Option VerificationCode → VerificationCode → Option VerificationCode
  | none, v => some v
  | some b, v => if b.createdAt < v.createdAt then some v else some b

/-- Model of `ctx.db.verificationCode.findFirst({where: {email, code, expiresAt: {gt: now}},
orderBy: {createdAt: "desc"}})`. -/
def findVerificationCode (db : DB) (now : Nat) (email code : String) :
    Option VerificationCode :=
  (db.verificationCodes.filter (matchesCode email code now)).foldl pickLatest none

/-- Model of `ctx.db.user.findUnique({where: {email}})`. -/
def DB.findUserByEmail (db : DB) (email : String) : Option User :=
  db.users.find? (fun u => u.email == email)

/-- Model of `ctx.db.user.update({where: {email}, data: {name, country}})`. -/
def DB.updateUserByEmail (db : DB) (email name country : String) : DB :=
  { db with
    users := db.users.map (fun u =>
      if u.email == email then { u with name := name, country := country } else u) }

/-- Model of `ctx.db.user.create({data: {email, name, country}})`. -/
def DB.createUser (db : DB) (email name country : String) : User × DB :=
  let u : User := ⟨db.nextId, email, name, country⟩
  (u, { db with users := db.users ++ [u], nextId := db.nextId + 1 })

/-- Model of `ctx.db.session.create({data: {userId, token, expiresAt}})`. -/
def DB.createSession (db : DB) (userId : Nat) (token : String)
    (expiresAt createdAt : Nat) : DB :=
  { db with
    sessions := db.sessions ++ [⟨db.nextId, userId, token, expiresAt, createdAt⟩],
    nextId := db.nextId + 1 }

/-- Model of `ctx.db.verificationCode.delete({where: {id}})`. -/
def DB.deleteVerificationCode (db : DB) (id : Nat) : DB :=
  { db with verificationCodes := db.verificationCodes.filter (fun v => v.id != id) }

/-- Model of `authRouter.verifyAndRegister`: look up the freshest matching non-expired
code, upsert the user, mint a 30-day session (token passed in for the
`randomBytes` draw), delete the consumed code. -/
def verifyAndRegister (db : DB) (now : Nat) (email code name country token : String) :
    Except TRPCErrorCode (String × User) × DB :=
  match findVerificationCode db now email code with
  | none => (Except.error TRPCErrorCode.UNAUTHORIZED, db)
  | some vc =>
    let userDb :=
      match db.findUserByEmail email with
      | some u => ({ u with name := name, country := country },
                   db.updateUserByEmail email name country)
      | none => db.createUser email name country
    let user := userDb.1
    let db2 := userDb.2.createSession user.id token (now + thirtyDaysMs) now
    let db3 := db2.deleteVerificationCode vc.id
    (Except.ok (token, user), db3)

/-- Source `input.email.split("@")[0]`. -/
def emailLocalPart (email : String) : String :=
  String.mk (email.toList.takeWhile (fun c => c ≠ '@'))

/-- Source `emailName.charAt(0).toUpperCase() + emailName.slice(1)`. -/
def capitalizeFirst (s : String) : String :=
  match s.toList with
  | [] => ""
  | c :: rest => String.mk (c.toUpper :: rest)

/-- Model of `authRouter.verifyAndLogin`: same code lookup/consumption; auto-creates
a user from the email local part when none exists. -/
def verifyAndLogin (db : DB) (now : Nat) (email code token : String) :
    Except TRPCErrorCode (String × User) × DB :=
  match findVerificationCode db now email code with
  | none => (Except.error TRPCErrorCode.UNAUTHORIZED, db)
  | some vc =>
    let userDb :=
      match db.findUserByEmail email with
      | some u => (u, db)
      | none => db.createUser email (capitalizeFirst (emailLocalPart email)) "Unknown"
    let user := userDb.1
    let db2 := userDb.2.createSession user.id token (now + thirtyDaysMs) now
    let db3 := db2.deleteVerificationCode vc.id
    (Except.ok (token, user), db3)

/-- Whitespace as matched by the `\s` class used in `/^Bearer\s+/i`. -/
def isSpaceChar (c : Char) : Bool :=
  c = ' ' || c = '\t' || c = '\n' || c = '\r' || c = '\x0b' || c = '\x0c'

def trimChars (l : List Char) : List Char :=
  ((l.dropWhile isSpaceChar).reverse.dropWhile isSpaceChar).reverse

/-- JavaScript `String.prototype.trim`. -/
def jsTrim (s : String) : String := String.mk (trimChars s.toList)

/-- Source `authHeader.replace(/^Bearer\s+/i, "")`: drop a case-insensitive
`Bearer` followed by at least one whitespace character at the start. -/
def stripBearer (s : String) : String :=
  match s.toList with
  | b :: e1 :: a :: r1 :: e2 :: r2 :: rest =>
    if b.toLower == 'b' && e1.toLower == 'e' && a.toLower == 'a' &&
       r1.toLower == 'r' && e2.toLower == 'e' && r2.toLower == 'r' then
      match rest with
      | [] => s
      | w :: _ => if isSpaceChar w then String.mk (rest.dropWhile isSpaceChar) else s
    else s
  | _ => s

/-- Token extraction shared by `createTRPCContext` and the logout handler:
`typeof authHeader === "string" ? authHeader.replace(/^Bearer\s+/i, "").trim() : null`. -/
def extractToken (authHeader : Option String) : Option String :=
  authHeader.map (fun h => jsTrim (stripBearer h))

/-- Model of `ctx.db.session.findUnique({where: {token}})`. -/
def DB.findSessionByToken (db : DB) (token : String) : Option Session :=
  db.sessions.find? (fun s => s.token == token)

/-- The identity bound by `createTRPCContext`: look the session up only when
the token is truthy and not the literal string `"undefined"`, and bind
`userId` only when `session.expiresAt > new Date()`. -/
def contextUserId (db : DB) (now : Nat) (authHeader : Option String) : Option Nat :=
  match extractToken authHeader with
  | none => none
  | some token =>
    if token != "" && token != "undefined" then
      match db.findSessionByToken token with
      | some s => if now < s.expiresAt then some s.userId else none
      | none => none
    else none

/-- Model of `authRouter.getCurrentUser` behind the `isAuthenticated` middleware. -/
def getCurrentUser (db : DB) (now : Nat) (authHeader : Option String) :
    Except TRPCErrorCode User :=
  match contextUserId db now authHeader with
  | none => Except.error TRPCErrorCode.UNAUTHORIZED
  | some uid =>
    match db.users.find? (fun u => u.id == uid) with
    | none => Except.error TRPCErrorCode.NOT_FOUND
    | some u => Except.ok u

/-- Body of `authRouter.logout` (after the middleware): re-extract the token
from the headers and `deleteMany` when it is truthy and not `"undefined"`. -/
def logoutHandler (db : DB) (authHeader : Option String) : Bool × DB :=
  match extractToken authHeader with
  | none => (true, db)
  | some token =>
    if token != "" && token != "undefined" then
      (true, { db with sessions := db.sessions.filter (fun s => s.token != token) })
    else (true, db)

/-- Model of `authRouter.logout`: a `protectedProcedure`, so the `isAuthenticated`
middleware rejects anonymous requests with `UNAUTHORIZED` before the
handler runs. -/
def logout (db : DB) (now : Nat) (authHeader : Option String) :
    Except TRPCErrorCode Bool × DB :=
  match contextUserId db now authHeader with
  | none => (Except.error TRPCErrorCode.UNAUTHORIZED, db)
  | some _ =>
    let r := logoutHandler db authHeader
    (Except.ok r.1, r.2)

/-- The per-row overwrite applied by `DB.updateUserByEmail`. -/
def updateFn (email name country : String) (u : User) : User :=
  if u.email == email then { u with name := name, country := country } else u

/-- Fixture store: two matching code rows with different creation times. -/
def dbC4 : DB :=
  ⟨[], [⟨0, "a@b.c", "123456", 100, 0⟩, ⟨1, "a@b.c", "123456", 100, 7⟩], [], 2⟩

/-- Fixture store: one existing user and a matching code row. -/
def dbC7 : DB := ⟨[⟨0, "a@b.c", "Old", "India"⟩], [⟨1, "a@b.c", "123456", 100, 0⟩], [], 2⟩

/-- Fixture store: a matching code row and no user. -/
def dbC6 : DB := ⟨[], [⟨0, "admin@example.com", "123456", 100, 0⟩], [], 1⟩

/-- The store produced by registering against `dbC5` with token `tok`. -/
def dbC5out : DB :=
  ⟨[⟨1, "a@b.c", "N", "C"⟩], [], [⟨2, 1, "tok", thirtyDaysMs, 0⟩], 3⟩

/-- Fixture store: a matching code row, no users, no sessions. -/
def dbC5 : DB := ⟨[], [⟨0, "a@b.c", "123456", 100, 0⟩], [], 1⟩

/-- Drawing `Math.random() = 0` yields the code `100000`. -/
lemma genCode_zero : generateVerificationCode 0 = 100000 := by
  norm_num [generateVerificationCode]
  rfl

lemma reprCode_zero : Nat.repr 100000 = "100000" := rfl

/-- The logout handler always reports success. -/
lemma logoutHandler_fst (db : DB) (hdr : Option String) :
    (logoutHandler db hdr).1 = true := by
  unfold logoutHandler
  cases hx : extractToken hdr with
  | none => rfl
  | some t =>
    dsimp only
    split <;> rfl

/-- C1, counterexample: with email dispatch enabled, the collaborator configured
and the send succeeding, a successful response still carries the `code` field,
refuting the claim that the code is absent when dispatch is enabled. -/
theorem C1_counterexample :
    (sendVerificationCode dbEmpty 0 "user@example.com" 0 true true true).1 =
      Except.ok ⟨true, "Verification code sent", some "100000"⟩ := by
  simp [sendVerificationCode, sendVerificationCodeEmail, DB.createVerificationCode,
        genCode_zero, reprCode_zero]

/-- C1, amended: every successful `sendVerificationCode` response carries the
generated code in its `code` field, in every dispatch mode. -/
theorem C1_code_field_always_present (db : DB) (now : Nat) (email : String) (r : ℚ)
    (sf rc so : Bool) (res : SendCodeResponse) (db2 : DB)
    (h : sendVerificationCode db now email r sf rc so = (Except.ok res, db2)) :
    res.code = some (Nat.repr (generateVerificationCode r)) := by
  obtain ⟨s, m, c⟩ := res
  cases sf <;> cases rc <;> cases so <;>
    simp_all [sendVerificationCode, sendVerificationCodeEmail]

/-- C1, witness: the amended theorem applied to a concrete dev-mode run. -/
theorem C1_code_field_always_present_witness :
    ({ success := true, message := "Verification code sent", code := some "100000" } :
      SendCodeResponse).code = some (Nat.repr (generateVerificationCode 0)) :=
  C1_code_field_always_present dbEmpty 0 "user@example.com" 0 false false false
    ⟨true, "Verification code sent", some "100000"⟩
    ⟨[], [⟨0, "user@example.com", "100000", 600000, 0⟩], [], 1⟩
    (by simp [sendVerificationCode, sendVerificationCodeEmail, DB.createVerificationCode,
              dbEmpty, genCode_zero, reprCode_zero, tenMinutesMs])

/-- C2, counterexample: logout with an absent bearer token yields the
`UNAUTHORIZED` error from the auth middleware, not a success response. -/
theorem C2_counterexample :
    (logout dbEmpty 0 none).1 = Except.error TRPCErrorCode.UNAUTHORIZED := rfl

/-- C2, amended: logout is a protected procedure.  When the context binds no
identity (absent, malformed or invalidated token) it fails with `UNAUTHORIZED`
and changes nothing; whenever a request passes the middleware it returns
`{success: true}`. -/
theorem C2_logout_requires_auth (db : DB) (now : Nat) (hdr : Option String) :
    (contextUserId db now hdr = none →
      logout db now hdr = (Except.error TRPCErrorCode.UNAUTHORIZED, db)) ∧
    (∀ uid, contextUserId db now hdr = some uid →
      (logout db now hdr).1 = Except.ok true) := by
  constructor
  · intro h; simp [logout, h]
  · intro uid h; simp [logout, h, logoutHandler_fst]

/-- C2, witness: the amended theorem applied to an empty store and absent header. -/
theorem C2_logout_requires_auth_witness :
    logout dbEmpty 0 none = (Except.error TRPCErrorCode.UNAUTHORIZED, dbEmpty) :=
  (C2_logout_requires_auth dbEmpty 0 none).1 rfl

/-- C9, counterexample: when the email collaborator fails, the operation
errors but the created verification-code row remains persisted, refuting the
claim that no state change survives a failed send. -/
theorem C9_counterexample :
    (sendVerificationCode dbEmpty 0 "user@example.com" 0 true true false).1 =
      Except.error TRPCErrorCode.INTERNAL_SERVER_ERROR ∧
    (sendVerificationCode dbEmpty 0 "user@example.com" 0 true true false).2.verificationCodes =
      [⟨0, "user@example.com", "100000", 600000, 0⟩] := by
  constructor
  · rfl
  · simp [sendVerificationCode, sendVerificationCodeEmail, DB.createVerificationCode,
          dbEmpty, genCode_zero, reprCode_zero, tenMinutesMs]

/-- C9, amended: when the email collaborator fails, `sendVerificationCode`
signals `INTERNAL_SERVER_ERROR`, yet the verification-code row created before
the send remains persisted (no rollback). -/
theorem C9_code_row_persists_on_email_failure (db : DB) (now : Nat) (email : String) (r : ℚ) :
    sendVerificationCode db now email r true true false =
      (Except.error TRPCErrorCode.INTERNAL_SERVER_ERROR,
       { db with
         verificationCodes := db.verificationCodes ++
           [⟨db.nextId, email, Nat.repr (generateVerificationCode r), now + tenMinutesMs, now⟩],
         nextId := db.nextId + 1 }) := rfl

/-- C10: a bearer token equal to the literal string "undefined" binds no
identity regardless of store contents, and the logout handler deletes no
sessions for it; the full logout leaves the store unchanged. -/
theorem C10_undefined_token_is_anonymous (db : DB) (now : Nat) :
    contextUserId db now (some "Bearer undefined") = none ∧
    logoutHandler db (some "Bearer undefined") = (true, db) ∧
    (logout db now (some "Bearer undefined")).2 = db := by
  have he : extractToken (some "Bearer undefined") = some "undefined" := rfl
  have h1 : contextUserId db now (some "Bearer undefined") = none := by
    simp [contextUserId, he]
  refine ⟨h1, ?_, ?_⟩
  · simp [logoutHandler, he]
  · simp [logout, h1]

/-- The step `pickLatest` never discards the accumulator into `none`. -/
lemma foldl_pickLatest_eq_none :
    ∀ (l : List VerificationCode) (acc : Option VerificationCode),
      l.foldl pickLatest acc = none → acc = none ∧ l = [] := by
  intro l
  induction l with
  | nil => intro acc h; exact ⟨h, rfl⟩
  | cons a l ih =>
    intro acc h
    simp only [List.foldl_cons] at h
    obtain ⟨h1, -⟩ := ih _ h
    exfalso
    cases acc with
    | none => simp [pickLatest] at h1
    | some b =>
      simp only [pickLatest] at h1
      split at h1 <;> simp at h1

/-- The fold selecting the most recently created row: the result is a member
(or the accumulator) and dominates every element and the accumulator in
`createdAt`. -/
lemma foldl_pickLatest_spec :
    ∀ (l : List VerificationCode) (acc : Option VerificationCode) (v : VerificationCode),
      l.foldl pickLatest acc = some v →
      (v ∈ l ∨ acc = some v) ∧
      (∀ w ∈ l, w.createdAt ≤ v.createdAt) ∧
      (∀ b, acc = some b → b.createdAt ≤ v.createdAt) := by
  intro l
  induction l with
  | nil =>
    intro acc v h
    simp only [List.foldl_nil] at h
    refine ⟨Or.inr h, by simp, ?_⟩
    intro b hb
    rw [h] at hb
    injection hb with hb
    rw [hb]
  | cons a l ih =>
    intro acc v h
    simp only [List.foldl_cons] at h
    obtain ⟨hmem, hle, hacc⟩ := ih (pickLatest acc a) v h
    have hstep : ∀ c, pickLatest acc a = some c →
        a.createdAt ≤ c.createdAt ∧ (c = a ∨ acc = some c) ∧
        (∀ b, acc = some b → b.createdAt ≤ c.createdAt) := by
      intro c hc
      cases acc with
      | none =>
        simp only [pickLatest] at hc
        injection hc with hc
        subst hc
        exact ⟨le_refl _, Or.inl rfl, by simp⟩
      | some b0 =>
        simp only [pickLatest] at hc
        split at hc <;> rename_i hlt <;> injection hc with hc <;> subst hc
        · refine ⟨le_refl _, Or.inl rfl, ?_⟩
          intro b hb
          injection hb with hb
          subst hb
          omega
        · refine ⟨by omega, Or.inr rfl, ?_⟩
          intro b hb
          injection hb with hb
          subst hb
          omega
    have hcex : ∃ c, pickLatest acc a = some c := by
      cases acc with
      | none => exact ⟨a, rfl⟩
      | some b0 =>
        simp only [pickLatest]
        split <;> exact ⟨_, rfl⟩
    obtain ⟨c, hceq⟩ := hcex
    obtain ⟨hac, hcor, hcacc⟩ := hstep c hceq
    have hcv := hacc c hceq
    refine ⟨?_, ?_, ?_⟩
    · rcases hmem with hm | hm
      · exact Or.inl (List.mem_cons_of_mem _ hm)
      · rw [hceq] at hm
        injection hm with hm
        subst hm
        rcases hcor with h1 | h2
        · subst h1; exact Or.inl (List.mem_cons_self _ _)
        · exact Or.inr h2
    · intro w hw
      rcases List.mem_cons.mp hw with h1 | h2
      · subst h1; omega
      · exact hle w h2
    · intro b hb
      exact le_trans (hcacc b hb) hcv

/-- Predicate `matchesCode` unfolded to a proposition. -/
lemma matchesCode_iff (email code : String) (now : Nat) (v : VerificationCode) :
    matchesCode email code now v = true ↔
      v.email = email ∧ v.code = code ∧ now < v.expiresAt := by
  simp [matchesCode, and_assoc]

/-- C4: code validation selects a stored row matching email and code exactly
with expiry strictly in the future and maximal creation time; when none
exists, both verify operations fail with `UNAUTHORIZED`. -/
theorem C4_lookup_selects_latest_valid (db : DB) (now : Nat)
    (email code name country tok : String) :
    match findVerificationCode db now email code with
    | some vc =>
        vc ∈ db.verificationCodes ∧ vc.email = email ∧ vc.code = code ∧
        now < vc.expiresAt ∧
        ∀ v ∈ db.verificationCodes,
          v.email = email → v.code = code → now < v.expiresAt →
          v.createdAt ≤ vc.createdAt
    | none =>
        (∀ v ∈ db.verificationCodes,
          v.email = email → v.code = code → ¬ now < v.expiresAt) ∧
        (verifyAndRegister db now email code name country tok).1 =
          Except.error TRPCErrorCode.UNAUTHORIZED ∧
        (verifyAndLogin db now email code tok).1 =
          Except.error TRPCErrorCode.UNAUTHORIZED := by
  cases hv : findVerificationCode db now email code with
  | none =>
    have hnil : db.verificationCodes.filter (matchesCode email code now) = [] :=
      (foldl_pickLatest_eq_none _ _ hv).2
    refine ⟨?_, ?_, ?_⟩
    · intro v hvmem he hc hexp
      have : matchesCode email code now v = true :=
        (matchesCode_iff email code now v).mpr ⟨he, hc, hexp⟩
      have := List.filter_eq_nil_iff.mp hnil v hvmem
      simp_all
    · simp [verifyAndRegister, hv]
    · simp [verifyAndLogin, hv]
  | some vc =>
    obtain ⟨hmem, hle, -⟩ := foldl_pickLatest_spec _ none vc hv
    rcases hmem with hmem | hmem
    swap
    · simp at hmem
    have hvc := List.mem_filter.mp hmem
    obtain ⟨hvcm, hvce, hvcc⟩ := (matchesCode_iff email code now vc).mp hvc.2
    refine ⟨hvc.1, hvcm, hvce, hvcc, ?_⟩
    intro v hvmem he hc hexp
    exact hle v (List.mem_filter.mpr ⟨hvmem,
      (matchesCode_iff email code now v).mpr ⟨he, hc, hexp⟩⟩)

/-- C4, witness: the theorem applied to a store holding two matching rows. -/
theorem C4_witness :
    match findVerificationCode dbC4 5 "a@b.c" "123456" with
    | some vc =>
        vc ∈ dbC4.verificationCodes ∧ vc.email = "a@b.c" ∧ vc.code = "123456" ∧
        5 < vc.expiresAt ∧
        ∀ v ∈ dbC4.verificationCodes,
          v.email = "a@b.c" → v.code = "123456" → 5 < v.expiresAt →
          v.createdAt ≤ vc.createdAt
    | none =>
        (∀ v ∈ dbC4.verificationCodes,
          v.email = "a@b.c" → v.code = "123456" → ¬ 5 < v.expiresAt) ∧
        (verifyAndRegister dbC4 5 "a@b.c" "123456" "N" "C" "tok").1 =
          Except.error TRPCErrorCode.UNAUTHORIZED ∧
        (verifyAndLogin dbC4 5 "a@b.c" "123456" "tok").1 =
          Except.error TRPCErrorCode.UNAUTHORIZED :=
  C4_lookup_selects_latest_valid dbC4 5 "a@b.c" "123456" "N" "C" "tok"

/-- The store returned by `sendVerificationCode` always contains the freshly
created code row, whether or not the email collaborator succeeded. -/
lemma sendVerificationCode_snd (db : DB) (now : Nat) (email : String) (r : ℚ)
    (sf rc so : Bool) :
    (sendVerificationCode db now email r sf rc so).2 =
      db.createVerificationCode email (Nat.repr (generateVerificationCode r))
        (now + tenMinutesMs) now := by
  simp only [sendVerificationCode]
  split <;> rfl

/-- A failed lookup makes `verifyAndRegister` throw `UNAUTHORIZED`. -/
lemma verifyAndRegister_fst_no_code (db : DB) (now : Nat)
    (email code name country tok : String)
    (h : findVerificationCode db now email code = none) :
    (verifyAndRegister db now email code name country tok).1 =
      Except.error TRPCErrorCode.UNAUTHORIZED := by
  simp [verifyAndRegister, h]

/-- With no code rows, the lookup finds nothing. -/
lemma findVerificationCode_of_empty (db : DB) (now : Nat) (email code : String)
    (h : db.verificationCodes = []) :
    findVerificationCode db now email code = none := by
  simp [findVerificationCode, h]

/-- C3: starting from a store with no codes, issuing a code and verifying it
once (before expiry) succeeds and deletes the consumed row, and a second
verification with the same email and code fails with `UNAUTHORIZED`. -/
theorem C3_code_single_use (db : DB) (now t t2 : Nat)
    (email name country tok : String) (r : ℚ) (sf rc : Bool)
    (h0 : db.verificationCodes = [])
    (ht : t < now + tenMinutesMs) :
    ∃ user db2,
      verifyAndRegister (sendVerificationCode db now email r sf rc true).2 t email
          (Nat.repr (generateVerificationCode r)) name country tok =
        (Except.ok (tok, user), db2) ∧
      db2.verificationCodes = [] ∧
      (verifyAndRegister db2 t2 email (Nat.repr (generateVerificationCode r))
          name country tok).1 =
        Except.error TRPCErrorCode.UNAUTHORIZED := by
  set codeStr := Nat.repr (generateVerificationCode r) with hcode
  set row : VerificationCode := ⟨db.nextId, email, codeStr, now + tenMinutesMs, now⟩ with hrow
  set db1 := (sendVerificationCode db now email r sf rc true).2 with hdb1def
  have hdb1 : db1 = db.createVerificationCode email codeStr (now + tenMinutesMs) now :=
    sendVerificationCode_snd db now email r sf rc true
  have hcodes1 : db1.verificationCodes = [row] := by
    rw [hdb1]
    simp [DB.createVerificationCode, h0, hrow]
  have hfind : findVerificationCode db1 t email codeStr = some row := by
    simp [findVerificationCode, hcodes1, matchesCode, hrow, ht, pickLatest]
  have hdel : ∀ dbx : DB, dbx.verificationCodes = [row] →
      (dbx.deleteVerificationCode row.id).verificationCodes = [] := by
    intro dbx hx
    simp [DB.deleteVerificationCode, hx]
  simp only [verifyAndRegister, hfind]
  cases hu : db1.findUserByEmail email with
  | some u0 =>
    refine ⟨{ u0 with name := name, country := country }, _, rfl, ?_, ?_⟩
    · simp [DB.deleteVerificationCode, DB.createSession, DB.updateUserByEmail, hcodes1]
    · apply verifyAndRegister_fst_no_code
      apply findVerificationCode_of_empty
      simp [DB.deleteVerificationCode, DB.createSession, DB.updateUserByEmail, hcodes1]
  | none =>
    refine ⟨(db1.createUser email name country).1, _, rfl, ?_, ?_⟩
    · simp [DB.deleteVerificationCode, DB.createSession, DB.createUser, hcodes1]
    · apply verifyAndRegister_fst_no_code
      apply findVerificationCode_of_empty
      simp [DB.deleteVerificationCode, DB.createSession, DB.createUser, hcodes1]

/-- C3, witness: the theorem applied to a concrete issue-verify-verify run. -/
theorem C3_witness :
    ∃ user db2,
      verifyAndRegister (sendVerificationCode dbEmpty 0 "a@b.c" 0 false false true).2 5 "a@b.c"
          (Nat.repr (generateVerificationCode 0)) "N" "C" "tok" =
        (Except.ok ("tok", user), db2) ∧
      db2.verificationCodes = [] ∧
      (verifyAndRegister db2 9 "a@b.c" (Nat.repr (generateVerificationCode 0))
          "N" "C" "tok").1 =
        Except.error TRPCErrorCode.UNAUTHORIZED :=
  C3_code_single_use dbEmpty 0 5 9 "a@b.c" "N" "C" "tok" 0 false false rfl (by decide)

/-- C6: `verifyAndLogin` with a valid code and no existing user creates one
whose name is the capitalized email local-part and whose country is
"Unknown", and returns the token with that user. -/
theorem C6_login_autoprovisions_user (db : DB) (now : Nat) (email code tok : String)
    (vc : VerificationCode)
    (hvc : findVerificationCode db now email code = some vc)
    (hno : db.findUserByEmail email = none) :
    (verifyAndLogin db now email code tok).1 =
      Except.ok (tok, ⟨db.nextId, email, capitalizeFirst (emailLocalPart email), "Unknown"⟩) ∧
    (⟨db.nextId, email, capitalizeFirst (emailLocalPart email), "Unknown"⟩ : User) ∈
      (verifyAndLogin db now email code tok).2.users := by
  simp only [verifyAndLogin, hvc, hno]
  constructor
  · rfl
  · simp [DB.createUser, DB.createSession, DB.deleteVerificationCode]

/-- C6, witness: the theorem applied to a concrete first login. -/
theorem C6_witness :
    (verifyAndLogin dbC6 5 "admin@example.com" "123456" "tok").1 =
      Except.ok ("tok",
        ⟨dbC6.nextId, "admin@example.com",
          capitalizeFirst (emailLocalPart "admin@example.com"), "Unknown"⟩) ∧
    (⟨dbC6.nextId, "admin@example.com",
        capitalizeFirst (emailLocalPart "admin@example.com"), "Unknown"⟩ : User) ∈
      (verifyAndLogin dbC6 5 "admin@example.com" "123456" "tok").2.users :=
  C6_login_autoprovisions_user dbC6 5 "admin@example.com" "123456" "tok"
    ⟨0, "admin@example.com", "123456", 100, 0⟩ (by decide) (by decide)

/-- C7: `verifyAndRegister` with a valid code and an existing user overwrites
that user's name and country in place: the returned user is the overwrite of
the stored row, it is stored, and the stored email list (hence the unique
email invariant) and user count are unchanged. -/
theorem C7_register_overwrites_existing_user (db : DB) (now : Nat)
    (email code name country tok : String) (vc : VerificationCode) (u0 : User)
    (hvc : findVerificationCode db now email code = some vc)
    (hu : db.findUserByEmail email = some u0) :
    (verifyAndRegister db now email code name country tok).1 =
      Except.ok (tok, { u0 with name := name, country := country }) ∧
    ({ u0 with name := name, country := country } : User) ∈
      (verifyAndRegister db now email code name country tok).2.users ∧
    (verifyAndRegister db now email code name country tok).2.users.map User.email =
      db.users.map User.email ∧
    (verifyAndRegister db now email code name country tok).2.users.length =
      db.users.length := by
  have hu' : db.users.find? (fun u => u.email == email) = some u0 := hu
  have hu0mem : u0 ∈ db.users := List.mem_of_find?_eq_some hu'
  have hu0email : (u0.email == email) = true := by
    have := List.find?_some hu'
    simpa using this
  simp only [verifyAndRegister, hvc, hu]
  refine ⟨trivial, ?_, ?_, ?_⟩
  · simp only [DB.deleteVerificationCode, DB.createSession, DB.updateUserByEmail]
    refine List.mem_map.mpr ⟨u0, hu0mem, ?_⟩
    simp [hu0email]
  · simp only [DB.deleteVerificationCode, DB.createSession, DB.updateUserByEmail,
               List.map_map]
    apply List.map_congr_left
    intro u hu2
    show (if (u.email == email) = true then
        { u with name := name, country := country } else u).email = u.email
    split <;> rfl
  · simp [DB.deleteVerificationCode, DB.createSession, DB.updateUserByEmail]

/-- C7, witness: the theorem applied to a concrete re-registration. -/
theorem C7_witness :
    (verifyAndRegister dbC7 5 "a@b.c" "123456" "New" "France" "tok").1 =
      Except.ok ("tok", { (⟨0, "a@b.c", "Old", "India"⟩ : User) with
        name := "New", country := "France" }) ∧
    ({ (⟨0, "a@b.c", "Old", "India"⟩ : User) with
        name := "New", country := "France" } : User) ∈
      (verifyAndRegister dbC7 5 "a@b.c" "123456" "New" "France" "tok").2.users ∧
    (verifyAndRegister dbC7 5 "a@b.c" "123456" "New" "France" "tok").2.users.map User.email =
      dbC7.users.map User.email ∧
    (verifyAndRegister dbC7 5 "a@b.c" "123456" "New" "France" "tok").2.users.length =
      dbC7.users.length :=
  C7_register_overwrites_existing_user dbC7 5 "a@b.c" "123456" "New" "France" "tok"
    ⟨1, "a@b.c", "123456", 100, 0⟩ ⟨0, "a@b.c", "Old", "India"⟩ (by decide) (by decide)

/-- Searching an appended singleton whose predicate fails on the prefix. -/
lemma find?_append_singleton {α : Type} (p : α → Bool) (l : List α) (a : α)
    (h : ∀ x ∈ l, p x = false) (ha : p a = true) :
    (l ++ [a]).find? p = some a := by
  induction l with
  | nil => simp [List.find?, ha]
  | cons x xs ih =>
    have hx := h x (by simp)
    rw [List.cons_append, List.find?_cons_of_neg _ (by simp [hx])]
    exact ih (fun y hy => h y (List.mem_cons_of_mem _ hy))

lemma updateUserByEmail_eq_map (db : DB) (email name country : String) :
    (db.updateUserByEmail email name country).users =
      db.users.map (updateFn email name country) := rfl

/-- Looking a user up by the id of the row found by email, after the
name/country overwrite, returns the overwritten row (ids are unique). -/
lemma find?_update_by_id (l : List User) (email name country : String) (u0 : User)
    (h : l.find? (fun u => u.email == email) = some u0)
    (hp : l.Pairwise (fun a b => a.id ≠ b.id)) :
    (l.map (updateFn email name country)).find? (fun u => u.id == u0.id) =
      some { u0 with name := name, country := country } := by
  induction l with
  | nil => simp at h
  | cons x xs ih =>
    obtain ⟨hx, hxs⟩ := List.pairwise_cons.mp hp
    by_cases hxe : (x.email == email) = true
    · have hcons : List.find? (fun u : User => u.email == email) (x :: xs) = some x :=
        List.find?_cons_of_pos _ hxe
      rw [hcons] at h
      injection h with h
      subst h
      have hfx : updateFn email name country x =
          { x with name := name, country := country } := by
        simp [updateFn, hxe]
      rw [List.map_cons]
      have hpos : List.find? (fun u : User => u.id == x.id)
          (updateFn email name country x :: xs.map (updateFn email name country)) =
          some (updateFn email name country x) :=
        List.find?_cons_of_pos _ (by rw [hfx]; simp)
      rw [hpos, hfx]
    · have hxe' : (x.email == email) = false := by simpa using hxe
      have hcons : List.find? (fun u : User => u.email == email) (x :: xs) =
          List.find? (fun u : User => u.email == email) xs :=
        List.find?_cons_of_neg _ (by simp [hxe'])
      rw [hcons] at h
      have hu0mem : u0 ∈ xs := List.mem_of_find?_eq_some h
      have hxid : x.id ≠ u0.id := hx u0 hu0mem
      have hfx : updateFn email name country x = x := by
        simp [updateFn, hxe']
      rw [List.map_cons]
      have hneg : List.find? (fun u : User => u.id == u0.id)
          (updateFn email name country x :: xs.map (updateFn email name country)) =
          List.find? (fun u : User => u.id == u0.id)
            (xs.map (updateFn email name country)) :=
        List.find?_cons_of_neg _ (by rw [hfx]; simp [hxid])
      rw [hneg]
      exact ih h hxs

/-- A token made of non-whitespace characters passes through header
extraction unchanged. -/
lemma extractToken_bearer (tok : String)
    (h : tok.toList.all (fun c => !isSpaceChar c) = true) :
    extractToken (some ("Bearer " ++ tok)) = some tok := by
  have hnospace : ∀ c ∈ tok.toList, isSpaceChar c = false := by
    intro c hc
    have := (List.all_eq_true.mp h) c hc
    simpa using this
  have hdrop : tok.toList.dropWhile isSpaceChar = tok.toList := by
    cases htl : tok.toList with
    | nil => rfl
    | cons c cs =>
      rw [List.dropWhile_cons]
      have hc := hnospace c (by rw [htl]; exact List.mem_cons_self _ _)
      simp [hc]
  have hdroprev : tok.toList.reverse.dropWhile isSpaceChar = tok.toList.reverse := by
    cases htl : tok.toList.reverse with
    | nil => rfl
    | cons c cs =>
      rw [List.dropWhile_cons]
      have hcmem : c ∈ tok.toList := by
        rw [← List.mem_reverse, htl]
        exact List.mem_cons_self _ _
      simp [hnospace c hcmem]
  have hlist : ("Bearer " ++ tok).toList =
      'B' :: 'e' :: 'a' :: 'r' :: 'e' :: 'r' :: ' ' :: tok.toList := rfl
  have hstrip : stripBearer ("Bearer " ++ tok) = tok := by
    unfold stripBearer
    rw [hlist]
    dsimp only
    norm_num [isSpaceChar]
    split
    · exact congrArg String.mk hdrop
    · rename_i hcond
      exact absurd (by decide) hcond
  have hjs : jsTrim tok = tok := by
    unfold jsTrim trimChars
    rw [show List.dropWhile isSpaceChar tok.toList = tok.toList from hdrop,
        show List.dropWhile isSpaceChar tok.toList.reverse = tok.toList.reverse from hdroprev,
        List.reverse_reverse]
    rfl
  show some (jsTrim (stripBearer ("Bearer " ++ tok))) = some tok
  rw [hstrip, hjs]

lemma guard_true (tok : String) (htok1 : tok ≠ "") (htok2 : tok ≠ "undefined") :
    (tok != "" && tok != "undefined") = true := by
  rw [Bool.and_eq_true, bne_iff_ne, bne_iff_ne]
  exact ⟨htok1, htok2⟩

lemma contextUserId_no_session (dbx : DB) (t : Nat) (tok : String)
    (htok3 : tok.toList.all (fun c => !isSpaceChar c) = true)
    (hns : dbx.findSessionByToken tok = none) :
    contextUserId dbx t (some ("Bearer " ++ tok)) = none := by
  unfold contextUserId
  rw [extractToken_bearer tok htok3]
  dsimp only
  split <;> simp [hns]

/-- Core of the session lifecycle: a store whose sessions are the old ones
plus a freshly minted token behaves as specified for `getCurrentUser` and
`logout` until expiry / logout. -/
lemma lifecycle_core (db3 : DB) (old : List Session) (t t2 now : Nat)
    (tok : String) (user : User) (sess : Session)
    (htok1 : tok ≠ "") (htok2 : tok ≠ "undefined")
    (htok3 : tok.toList.all (fun c => !isSpaceChar c) = true)
    (hfreshold : ∀ s ∈ old, s.token ≠ tok)
    (hsess3 : db3.sessions = old ++ [sess])
    (hsesstok : sess.token = tok) (hsessuid : sess.userId = user.id)
    (hsessexp : sess.expiresAt = now + thirtyDaysMs)
    (hfindu : db3.users.find? (fun u => u.id == user.id) = some user) :
    (t < now + thirtyDaysMs →
      getCurrentUser db3 t (some ("Bearer " ++ tok)) = Except.ok user) ∧
    (now + thirtyDaysMs ≤ t →
      getCurrentUser db3 t (some ("Bearer " ++ tok)) =
        Except.error TRPCErrorCode.UNAUTHORIZED) ∧
    (t < now + thirtyDaysMs →
      (logout db3 t (some ("Bearer " ++ tok))).1 = Except.ok true ∧
      getCurrentUser (logout db3 t (some ("Bearer " ++ tok))).2 t2
          (some ("Bearer " ++ tok)) =
        Except.error TRPCErrorCode.UNAUTHORIZED) := by
  have hguard := guard_true tok htok1 htok2
  have hget : db3.findSessionByToken tok = some sess := by
    rw [DB.findSessionByToken, hsess3]
    apply find?_append_singleton
    · intro x hx
      simp [hfreshold x hx]
    · simp [hsesstok]
  have hctx_valid : t < now + thirtyDaysMs →
      contextUserId db3 t (some ("Bearer " ++ tok)) = some user.id := by
    intro ht
    unfold contextUserId
    rw [extractToken_bearer tok htok3]
    dsimp only
    simp [hguard, hget, hsessexp, ht, hsessuid]
  have hctx_expired : now + thirtyDaysMs ≤ t →
      contextUserId db3 t (some ("Bearer " ++ tok)) = none := by
    intro ht
    unfold contextUserId
    rw [extractToken_bearer tok htok3]
    dsimp only
    simp [hguard, hget, hsessexp]
    omega
  refine ⟨?_, ?_, ?_⟩
  · intro ht
    simp [getCurrentUser, hctx_valid ht, hfindu]
  · intro ht
    simp [getCurrentUser, hctx_expired ht]
  · intro ht
    have hlogout : logout db3 t (some ("Bearer " ++ tok)) =
        (Except.ok true,
         { db3 with sessions := db3.sessions.filter (fun s => s.token != tok) }) := by
      unfold logout
      rw [hctx_valid ht]
      dsimp only
      unfold logoutHandler
      rw [extractToken_bearer tok htok3]
      dsimp only
      simp [hguard]
    rw [hlogout]
    refine ⟨rfl, ?_⟩
    have hns : ({ db3 with
        sessions := db3.sessions.filter (fun s => s.token != tok) } : DB).findSessionByToken
          tok = none := by
      rw [DB.findSessionByToken]
      apply List.find?_eq_none.mpr
      intro x hx
      have hxf := (List.mem_filter.mp hx).2
      simp only [bne_iff_ne] at hxf
      simp [hxf]
    simp [getCurrentUser, contextUserId_no_session _ t2 tok htok3 hns]

/-- C5: a token minted by `verifyAndRegister` authenticates `getCurrentUser`
to the session user strictly before `now + 30 days`, fails with `UNAUTHORIZED`
from expiry on, and after a logout with that token `getCurrentUser` fails with
`UNAUTHORIZED` at any time. -/
theorem C5_session_lifecycle
    (db : DB) (now t t2 : Nat) (email code name country tok : String)
    (user : User) (db2 : DB)
    (hwf1 : db.users.Pairwise (fun a b => a.id ≠ b.id))
    (hwf2 : ∀ u ∈ db.users, u.id < db.nextId)
    (hfresh : ∀ s ∈ db.sessions, s.token ≠ tok)
    (htok1 : tok ≠ "") (htok2 : tok ≠ "undefined")
    (htok3 : tok.toList.all (fun c => !isSpaceChar c) = true)
    (h : verifyAndRegister db now email code name country tok =
      (Except.ok (tok, user), db2)) :
    (t < now + thirtyDaysMs →
      getCurrentUser db2 t (some ("Bearer " ++ tok)) = Except.ok user) ∧
    (now + thirtyDaysMs ≤ t →
      getCurrentUser db2 t (some ("Bearer " ++ tok)) =
        Except.error TRPCErrorCode.UNAUTHORIZED) ∧
    (t < now + thirtyDaysMs →
      (logout db2 t (some ("Bearer " ++ tok))).1 = Except.ok true ∧
      getCurrentUser (logout db2 t (some ("Bearer " ++ tok))).2 t2
          (some ("Bearer " ++ tok)) =
        Except.error TRPCErrorCode.UNAUTHORIZED) := by
  cases hfv : findVerificationCode db now email code with
  | none =>
    simp only [verifyAndRegister, hfv] at h
    exact absurd (congrArg Prod.fst h) (by simp)
  | some vc =>
    simp only [verifyAndRegister, hfv] at h
    cases hu : db.findUserByEmail email with
    | some u0 =>
      simp only [hu] at h
      have h1 := congrArg Prod.fst h
      have h2 := congrArg Prod.snd h
      simp only at h1 h2
      injection h1 with h1
      injection h1 with h1a h1b
      subst h1b
      subst h2
      apply lifecycle_core _ db.sessions t t2 now tok _
        ⟨(db.updateUserByEmail email name country).nextId,
          { u0 with name := name, country := country }.id, tok,
          now + thirtyDaysMs, now⟩
        htok1 htok2 htok3 hfresh rfl rfl rfl rfl
      show ((db.updateUserByEmail email name country).users).find? _ = _
      rw [updateUserByEmail_eq_map]
      exact find?_update_by_id db.users email name country u0 hu hwf1
    | none =>
      simp only [hu] at h
      have h1 := congrArg Prod.fst h
      have h2 := congrArg Prod.snd h
      simp only at h1 h2
      injection h1 with h1
      injection h1 with h1a h1b
      subst h1b
      subst h2
      apply lifecycle_core _ db.sessions t t2 now tok _
        ⟨(db.createUser email name country).2.nextId,
          (db.createUser email name country).1.id, tok,
          now + thirtyDaysMs, now⟩
        htok1 htok2 htok3 hfresh rfl rfl rfl rfl
      show ((db.createUser email name country).2.users).find? _ = _
      apply find?_append_singleton
      · intro x hx
        have := hwf2 x hx
        simp only [DB.createUser]
        simp
        omega
      · simp [DB.createUser]

/-- C5, witness: the theorem applied to a concrete register-then-use run. -/
theorem C5_witness :
    (5 < 0 + thirtyDaysMs →
      getCurrentUser dbC5out 5 (some ("Bearer " ++ "tok")) =
        Except.ok ⟨1, "a@b.c", "N", "C"⟩) ∧
    (0 + thirtyDaysMs ≤ 5 →
      getCurrentUser dbC5out 5 (some ("Bearer " ++ "tok")) =
        Except.error TRPCErrorCode.UNAUTHORIZED) ∧
    (5 < 0 + thirtyDaysMs →
      (logout dbC5out 5 (some ("Bearer " ++ "tok"))).1 = Except.ok true ∧
      getCurrentUser (logout dbC5out 5 (some ("Bearer " ++ "tok"))).2 7
          (some ("Bearer " ++ "tok")) =
        Except.error TRPCErrorCode.UNAUTHORIZED) :=
  C5_session_lifecycle dbC5 0 5 7 "a@b.c" "123456" "N" "C" "tok"
    ⟨1, "a@b.c", "N", "C"⟩ dbC5out
    (by simp [dbC5]) (by simp [dbC5]) (by simp [dbC5])
    (by decide) (by decide) (by decide) rfl

/-- Running `Nat.toDigitsCore` with enough fuel produces exactly the base-10 digit
characters, most significant first. -/
lemma toDigitsCore_eq_digits :
    ∀ (f n : Nat), n < f → 0 < n → ∀ (l : List Char),
      Nat.toDigitsCore 10 f n l =
        ((Nat.digits 10 n).map Nat.digitChar).reverse ++ l := by
  intro f
  induction f with
  | zero => omega
  | succ f ih =>
    intro n hf hn l
    rw [Nat.toDigitsCore]
    by_cases h10 : n / 10 = 0
    · simp only [h10, if_true]
      rw [Nat.digits_def' (by norm_num : (1:ℕ) < 10) hn, h10, Nat.digits_zero]
      simp
    · simp only [h10, if_false]
      have hn' : 0 < n / 10 := Nat.pos_of_ne_zero h10
      have hlt : n / 10 < f :=
        lt_of_lt_of_le (Nat.div_lt_self hn (by norm_num)) (Nat.lt_succ_iff.mp hf)
      rw [ih (n / 10) hlt hn']
      rw [Nat.digits_def' (by norm_num : (1:ℕ) < 10) hn]
      simp [List.append_assoc]

/-- For positive `n`, the characters of `Nat.repr n` are the decimal digit
characters of `n`. -/
lemma repr_toList (n : Nat) (hn : 0 < n) :
    (Nat.repr n).toList = ((Nat.digits 10 n).map Nat.digitChar).reverse := by
  show (Nat.toDigits 10 n).asString.toList = _
  rw [Nat.toDigits, toDigitsCore_eq_digits (n + 1) n (Nat.lt_succ_self n) hn []]
  simp [List.asString]

lemma repr_length_eq_log (n : Nat) (hn : 0 < n) :
    (Nat.repr n).length = Nat.log 10 n + 1 := by
  have h1 : (Nat.repr n).length = (Nat.repr n).toList.length := rfl
  rw [h1, repr_toList n hn]
  rw [List.length_reverse, List.length_map]
  exact Nat.digits_len 10 n (by norm_num) (by omega)

/-- Any value in `[100000, 999999]` prints as exactly six characters. -/
lemma repr_length_six (n : Nat) (h1 : 100000 ≤ n) (h2 : n ≤ 999999) :
    (Nat.repr n).length = 6 := by
  rw [repr_length_eq_log n (by omega)]
  have hlog : Nat.log 10 n = 5 :=
    Nat.log_eq_of_pow_le_of_lt_pow (by norm_num; omega) (by norm_num; omega)
  omega

lemma digitChar_isDigit (d : Nat) (hd : d < 10) :
    (Nat.digitChar d).isDigit = true := by
  interval_cases d <;> rfl

lemma repr_all_digits (n : Nat) (hn : 0 < n) :
    ∀ c ∈ (Nat.repr n).toList, c.isDigit = true := by
  rw [repr_toList n hn]
  intro c hc
  rw [List.mem_reverse, List.mem_map] at hc
  obtain ⟨d, hd, rfl⟩ := hc
  exact digitChar_isDigit d (Nat.digits_lt_base (by norm_num) hd)

/-- The numeric interval of the generated code. -/
lemma genCode_bounds (r : ℚ) (h0 : 0 ≤ r) (h1 : r < 1) :
    100000 ≤ generateVerificationCode r ∧ generateVerificationCode r ≤ 999999 := by
  unfold generateVerificationCode
  have hlow : (100000 : ℤ) ≤ ⌊(100000 : ℚ) + r * 900000⌋ := by
    apply Int.le_floor.mpr
    push_cast
    nlinarith
  have hup : ⌊(100000 : ℚ) + r * 900000⌋ < 1000000 := by
    apply Int.floor_lt.mpr
    push_cast
    nlinarith
  omega

/-- C8: every generated code lies in [100000, 999999], prints as six decimal
digit characters, and the persisted row carries expiry `now + 10 minutes`. -/
theorem C8_code_format_and_expiry (db : DB) (now : Nat) (email : String) (r : ℚ)
    (sf rc so : Bool) (h0 : 0 ≤ r) (h1 : r < 1) :
    100000 ≤ generateVerificationCode r ∧
    generateVerificationCode r ≤ 999999 ∧
    (Nat.repr (generateVerificationCode r)).length = 6 ∧
    (∀ c ∈ (Nat.repr (generateVerificationCode r)).toList, c.isDigit = true) ∧
    (sendVerificationCode db now email r sf rc so).2.verificationCodes =
      db.verificationCodes ++
        [⟨db.nextId, email, Nat.repr (generateVerificationCode r),
          now + tenMinutesMs, now⟩] := by
  obtain ⟨hb1, hb2⟩ := genCode_bounds r h0 h1
  refine ⟨hb1, hb2, repr_length_six _ hb1 hb2, repr_all_digits _ (by omega), ?_⟩
  rw [sendVerificationCode_snd]
  rfl

/-- C8, witness: the theorem applied to the draw `r = 0`. -/
theorem C8_witness :
    100000 ≤ generateVerificationCode 0 ∧
    generateVerificationCode 0 ≤ 999999 ∧
    (Nat.repr (generateVerificationCode 0)).length = 6 ∧
    (∀ c ∈ (Nat.repr (generateVerificationCode 0)).toList, c.isDigit = true) ∧
    (sendVerificationCode dbEmpty 0 "a@b.c" 0 false false false).2.verificationCodes =
      dbEmpty.verificationCodes ++
        [⟨dbEmpty.nextId, "a@b.c", Nat.repr (generateVerificationCode 0),
          0 + tenMinutesMs, 0⟩] :=
  C8_code_format_and_expiry dbEmpty 0 "a@b.c" 0 false false false
    (by norm_num) (by norm_num)

end DigitalMenu
